import Mathlib

/-!
Verification of the real-time messaging and presence subsystem of the
drs_backend repository.

The embedding follows the source:
* `src/backend/models/Message.js` — the Message schema (content required,
  maxlength 5000, `read` defaulting to `false`, `readAt` optional,
  `timestamps: true`).
* the socket server module (`createRoomId`, the `connection` /
  `sendMessage` / `disconnect` handlers, the `onlineUsers` /
  `userSockets` / `userRooms` maps).
* the chat router (`GET /conversations`, `GET /messages/:userId`,
  `POST /send`, `PUT /mark-read/:messageId`, `GET /unread-count`).

Identities and socket ids are modelled as `String` (they are MongoDB
ObjectId hex strings in the source, so Lean's lexicographic `String`
order coincides with JavaScript's code-unit string comparison on them).
Timestamps are modelled as `Nat`.  The Mongo document store is a
`List Msg`; the fresh ObjectId for an insert is passed in as `newId`.
-/

namespace Drs

/-- A persisted chat message: the fields of the Mongoose `Message` schema
(`sender`, `recipient`, `content`, `read`, `readAt`) plus the `_id` and the
`createdAt` timestamp added by `timestamps: true`. -/
structure Msg where
  id : Nat
  sender : String
  recipient : String
  content : String
  createdAt : Nat
  read : Bool
  readAt : Option Nat
deriving Repr, DecidableEq

/-- The durable message store (the `messages` collection). -/
abbrev Store := List Msg

/-- Schema validation of `Message.content`: `required: true` (Mongoose
rejects the empty string for a required String path) and `maxlength: 5000`.
There is no `trim` option on the schema, so whitespace is not stripped. -/
def contentValid (content : String) : Bool :=
  !(content == "") && content.length ≤ 5000

/-- Errors the persistence layer can raise on `Message.create` /
`message.save()`. -/
inductive SendErr where
  | validationError
  | persistenceError
deriving Repr, DecidableEq

/-- `Message.create` / `new Message(...).save()`: runs schema validation,
then (when the store is reachable, `dbOk`) appends a new record with
`read=false` and no `readAt`.  `newId` is the generated ObjectId. -/
def mongooseCreate (dbOk : Bool) (newId : Nat) (sender recipient content : String)
    (createdAt : Nat) (store : Store) : Except SendErr (Msg × Store) :=
  if !contentValid content then .error .validationError
  else if !dbOk then .error .persistenceError
  else
    let m : Msg := ⟨newId, sender, recipient, content, createdAt, false, none⟩
    .ok (m, store ++ [m])

/-- JavaScript `String.prototype.trim` whitespace test (the characters that
matter for chat content). -/
def isWsChar (c : Char) : Bool :=
  c == ' ' || c == '\t' || c == '\n' || c == '\r'

/-- JavaScript `content.trim()`. -/
def jsTrim (s : String) : String :=
  (((s.toList.dropWhile isWsChar).reverse.dropWhile isWsChar).reverse).asString

/-- `createRoomId(userId1, userId2)` from the socket module: sorts the two
id strings (JavaScript default sort = lexicographic) and joins them as
`chat_<lower>_<higher>`.  The source has no self-pair check. -/
def createRoomId (userId1 userId2 : String) : String :=
  let lo := if userId1 ≤ userId2 then userId1 else userId2
  let hi := if userId1 ≤ userId2 then userId2 else userId1
  "chat_" ++ lo ++ "_" ++ hi

/-- One `socket.io` emission performed by the `sendMessage` handler. -/
inductive Emit where
  | toRoom (roomId : String) (event : String) (m : Msg)
  | toSender (event : String) (m : Msg)
  | errToSender (e : SendErr)
deriving Repr, DecidableEq

/-- The live `socket.on('sendMessage')` handler.  It persists the message
(`createdAt` is `timestamp || new Date()`, i.e. the client value when the
payload carries one, the server clock otherwise), then `populate`s the
record, computes the room id and emits `newMessage` to the room and
`messageSent` to the sender.  Any thrown error is caught and reported to
the sender alone as `messageError`.  Note: the handler performs **no**
content validation and **no** connection-authorization check of its own;
only Mongoose schema validation applies. -/
def socketSendMessage (dbOk populateOk : Bool) (newId : Nat)
    (userId recipient content : String) (timestamp : Option Nat) (now : Nat)
    (store : Store) : List Emit × Store :=
  match mongooseCreate dbOk newId userId recipient content (timestamp.getD now) store with
  | .error e => ([.errToSender e], store)
  | .ok (m, store₁) =>
    if !populateOk then ([.errToSender .persistenceError], store₁)
    else
      let roomId := createRoomId userId recipient
      ([.toRoom roomId "newMessage" m, .toSender "messageSent" m], store₁)

/-- The users collection restricted to what the chat routes read: each
user's `connections` array (directional, as checked by the routes). -/
abbrev Connections := List (String × List String)

/-- An HTTP response from the chat router. -/
inductive HttpResp where
  | okMsg (status : Nat) (m : Msg)
  | err (status : Nat) (msg : String)
deriving Repr, DecidableEq

/-- `POST /api/chat/send`: rejects empty/whitespace-only content with 400,
then loads the caller and requires `recipientId` in their `connections`
(403 otherwise), then saves the trimmed content (`createdAt` set by
`timestamps: true` to the server clock).  A missing caller or a
save failure lands in the catch-all 500. -/
def httpSendMessage (conns : Connections) (dbOk : Bool) (newId : Nat)
    (userId recipientId content : String) (now : Nat) (store : Store) :
    HttpResp × Store :=
  if jsTrim content == "" then
    (.err 400 "Message content is required", store)
  else
    match conns.lookup userId with
    | none => (.err 500 "Error sending message", store)
    | some myConns =>
      if !myConns.contains recipientId then
        (.err 403 "You can only send messages to connected users", store)
      else
        match mongooseCreate dbOk newId userId recipientId (jsTrim content) now store with
        | .error _ => (.err 500 "Error sending message", store)
        | .ok (m, store₁) => (.okMsg 201 m, store₁)

/-! ### Presence registry (the socket module's in-memory maps) -/

/-- `Map.set`: overwrite the entry for `k` in place when present, append
otherwise (JavaScript `Map` semantics). -/
def mapSet {β : Type} (k : String) (v : β) (m : List (String × β)) :
    List (String × β) :=
  if (m.lookup k).isSome then
    m.map (fun kv => if kv.1 = k then (k, v) else kv)
  else m ++ [(k, v)]

/-- `Map.delete`: remove the entry for `k` (JavaScript `Map` semantics). -/
def mapDelete {β : Type} (k : String) (m : List (String × β)) :
    List (String × β) :=
  m.filter (fun kv => decide (kv.1 ≠ k))

/-- The socket module's process-wide presence state: `onlineUsers`
(userId → socketId), `userSockets` (socketId → userId) and `userRooms`
(userId → joined room ids). -/
structure Presence where
  onlineUsers : List (String × String)
  userSockets : List (String × String)
  userRooms : List (String × List String)
deriving Repr, DecidableEq

/-- A presence broadcast emitted to all other connected clients. -/
inductive PresenceEvent where
  | userOnline (userId : String)
  | userOffline (userId : String)
deriving Repr, DecidableEq

/-- The registration part of `io.on('connection')`: unconditionally
overwrites `onlineUsers[userId]`, records the socket, resets the room set
and broadcasts `userOnline`. -/
def handleConnection (userId socketId : String) (st : Presence) :
    Presence × List PresenceEvent :=
  ({ onlineUsers := mapSet userId socketId st.onlineUsers,
     userSockets := mapSet socketId userId st.userSockets,
     userRooms := mapSet userId ([] : List String) st.userRooms },
   [.userOnline userId])

/-- `socket.on('disconnect')`: deletes the `onlineUsers`, `userSockets`
and `userRooms` entries and broadcasts `userOffline`.  Note: the deletion
is keyed on `userId` alone — the handler never compares the disconnecting
`socketId` against the currently registered one, and the broadcast is
unconditional. -/
def handleDisconnect (userId socketId : String) (st : Presence) :
    Presence × List PresenceEvent :=
  ({ onlineUsers := mapDelete userId st.onlineUsers,
     userSockets := mapDelete socketId st.userSockets,
     userRooms := mapDelete userId st.userRooms },
   [.userOffline userId])

/-- `getSocketId(userId)` from the socket module. -/
def getSocketId (userId : String) (st : Presence) : Option String :=
  st.onlineUsers.lookup userId

/-- `isUserOnline(userId)` from the socket module. -/
def isUserOnline (userId : String) (st : Presence) : Bool :=
  (getSocketId userId st).isSome

/-! ### Read path: history, unread count, mark-read, conversations
(the chat router) -/

/-- Ascending `createdAt` order (`sort({ createdAt: 1 })`). -/
def createdAtLe (a b : Msg) : Prop :=
  a.createdAt ≤ b.createdAt

instance : DecidableRel createdAtLe :=
  fun a b => Nat.decLe a.createdAt b.createdAt

instance : IsTotal Msg createdAtLe :=
  ⟨fun a b => Nat.le_total a.createdAt b.createdAt⟩

instance : IsTrans Msg createdAtLe :=
  ⟨fun _ _ _ h₁ h₂ => Nat.le_trans h₁ h₂⟩

/-- Descending `createdAt` order (`sort({ createdAt: -1 })`). -/
def createdAtGe (a b : Msg) : Prop :=
  b.createdAt ≤ a.createdAt

instance : DecidableRel createdAtGe :=
  fun a b => Nat.decLe b.createdAt a.createdAt

instance : IsTotal Msg createdAtGe :=
  ⟨fun a b => Nat.le_total b.createdAt a.createdAt⟩

instance : IsTrans Msg createdAtGe :=
  ⟨fun _ _ _ h₁ h₂ => Nat.le_trans h₂ h₁⟩

/-- The `$or` filter shared by the history and last-message queries:
message exchanged between `a` and `b` (in either direction). -/
def msgBetween (a b : String) (m : Msg) : Bool :=
  decide ((m.sender = a ∧ m.recipient = b) ∨ (m.sender = b ∧ m.recipient = a))

/-- The `updateMany` step of `GET /messages/:userId`: every unread message
from `partnerId` to `userId` gets `read := true` and a fresh `readAt`;
everything else is untouched. -/
def markAllRead (userId partnerId : String) (now : Nat) (store : Store) : Store :=
  store.map (fun m =>
    if m.sender = partnerId ∧ m.recipient = userId ∧ m.read = false then
      { m with read := true, readAt := some now }
    else m)

/-- An HTTP response from `GET /messages/:userId`. -/
inductive HistResp where
  | okMsgs (msgs : List Msg)
  | err (status : Nat) (msg : String)
deriving Repr, DecidableEq

/-- `GET /api/chat/messages/:userId`: requires the caller's `connections`
to contain the partner (403 otherwise); returns the messages between the
pair sorted by ascending `createdAt` limited to 100; then marks all unread
partner→caller messages read. -/
def getHistory (conns : Connections) (userId partnerId : String) (now : Nat)
    (store : Store) : HistResp × Store :=
  match conns.lookup userId with
  | none => (.err 500 "Error fetching messages", store)
  | some myConns =>
    if !myConns.contains partnerId then
      (.err 403 "You can only chat with connected users", store)
    else
      (.okMsgs ((List.insertionSort createdAtLe
          (store.filter (msgBetween userId partnerId))).take 100),
       markAllRead userId partnerId now store)

/-- `GET /api/chat/unread-count`: `countDocuments({ recipient, read: false })`. -/
def unreadCount (userId : String) (store : Store) : Nat :=
  store.countP (fun m => decide (m.recipient = userId ∧ m.read = false))

/-- An HTTP response from `PUT /mark-read/:messageId`. -/
inductive MarkResp where
  | okDone (m : Msg)
  | notFound
  | notAuthorized
deriving Repr, DecidableEq

/-- `PUT /api/chat/mark-read/:messageId`: 404 when no such message, 403
when the caller is not the recipient, otherwise sets `read := true` and a
fresh `readAt` and saves. -/
def markRead (userId : String) (messageId : Nat) (now : Nat) (store : Store) :
    MarkResp × Store :=
  match store.find? (fun m => decide (m.id = messageId)) with
  | none => (.notFound, store)
  | some m =>
    if m.recipient ≠ userId then (.notAuthorized, store)
    else
      (.okDone { m with read := true, readAt := some now },
       store.map (fun x =>
         if x.id = messageId then { x with read := true, readAt := some now }
         else x))

/-- The `$or` filter of the conversations query: `userId` is sender or
recipient. -/
def involves (userId : String) (m : Msg) : Bool :=
  decide (m.sender = userId ∨ m.recipient = userId)

/-- The two `if`-guarded `Set.add` calls of the conversations loop. -/
def otherParty (userId : String) (m : Msg) : List String :=
  (if m.sender = userId then [] else [m.sender]) ++
  (if m.recipient = userId then [] else [m.recipient])

/-- One insertion into a JavaScript `Set` (insertion order preserved,
duplicates ignored). -/
def insertUnique (acc : List String) (x : String) : List String :=
  if x ∈ acc then acc else acc ++ [x]

/-- A JavaScript `Set` built by iterating a list. -/
def jsSet (l : List String) : List String :=
  l.foldl insertUnique []

/-- The distinct conversation partners of `userId`: all counterparties of
messages involving `userId` (the query sorts by `createdAt` descending
before iterating). -/
def conversationPartners (userId : String) (store : Store) : List String :=
  jsSet ((List.insertionSort createdAtGe
    (store.filter (involves userId))).flatMap (otherParty userId))

/-- `Message.findOne({between pair}).sort({ createdAt: -1 })`. -/
def lastMessageBetween (userId p : String) (store : Store) : Option Msg :=
  (List.insertionSort createdAtGe (store.filter (msgBetween userId p))).head?

/-- One entry of the conversations response: the partner id, the most
recent message of the pair and the partner's unread count. -/
structure Conversation where
  partner : String
  lastMessage : Option Msg
  unreadCount : Nat
deriving Repr, DecidableEq

/-- The per-partner aggregation of `GET /conversations`. -/
def mkConversation (userId : String) (store : Store) (p : String) :
    Conversation :=
  ⟨p, lastMessageBetween userId p store,
   store.countP (fun m =>
     decide (m.sender = p ∧ m.recipient = userId ∧ m.read = false))⟩

/-- The sort key of the final `conversations.sort` (missing last message
counts as epoch 0). -/
def convTime (c : Conversation) : Nat :=
  (c.lastMessage.map Msg.createdAt).getD 0

/-- Descending order on `convTime` (the `timeB - timeA` comparator). -/
def convGe (a b : Conversation) : Prop :=
  convTime b ≤ convTime a

instance : DecidableRel convGe :=
  fun a b => Nat.decLe (convTime b) (convTime a)

instance : IsTotal Conversation convGe :=
  ⟨fun a b => Nat.le_total (convTime b) (convTime a)⟩

instance : IsTrans Conversation convGe :=
  ⟨fun _ _ _ h₁ h₂ => Nat.le_trans h₂ h₁⟩

/-- `GET /api/chat/conversations`: one entry per distinct partner, each
with last message and unread count, sorted by last-message time
descending. -/
def listConversations (userId : String) (store : Store) : List Conversation :=
  List.insertionSort convGe
    ((conversationPartners userId store).map (mkConversation userId store))

theorem lookup_map_overwrite {β : Type} (k : String) (v : β)
    (m : List (String × β)) (h : (m.lookup k).isSome) :
    (m.map (fun kv => if kv.1 = k then (k, v) else kv)).lookup k = some v := by
  induction m with
  | nil => simp [List.lookup] at h
  | cons kv t ih =>
    by_cases hk : kv.1 = k
    · subst hk
      simp only [List.map_cons, if_pos rfl]
      simp [List.lookup]
    · have h2 : (k == kv.1) = false := beq_eq_false_iff_ne.mpr (Ne.symm hk)
      simp only [List.lookup, h2] at h
      simp only [List.map_cons, if_neg hk]
      simp only [List.lookup, h2]
      exact ih h

theorem lookup_append_single {β : Type} (k : String) (v : β)
    (m : List (String × β)) (h : m.lookup k = none) :
    (m ++ [(k, v)]).lookup k = some v := by
  induction m with
  | nil => simp [List.lookup]
  | cons kv t ih =>
    cases hbe : (k == kv.1) with
    | true =>
      simp only [List.lookup, hbe] at h
      exact Option.noConfusion h
    | false =>
      simp only [List.lookup, hbe] at h
      simp only [List.cons_append, List.lookup, hbe]
      exact ih h

theorem lookup_mapSet {β : Type} (k : String) (v : β) (m : List (String × β)) :
    (mapSet k v m).lookup k = some v := by
  unfold mapSet
  by_cases h : (m.lookup k).isSome
  · rw [if_pos h]
    exact lookup_map_overwrite k v m h
  · rw [if_neg h]
    refine lookup_append_single k v m ?_
    cases hm : m.lookup k
    · rfl
    · exact absurd (by simp [hm]) h

theorem lookup_mapDelete {β : Type} (k : String) (m : List (String × β)) :
    (mapDelete k m).lookup k = none := by
  unfold mapDelete
  induction m with
  | nil => rfl
  | cons kv t ih =>
    by_cases hk : kv.1 = k
    · simpa [List.filter_cons, hk] using ih
    · have h2 : (k == kv.1) = false := beq_eq_false_iff_ne.mpr (Ne.symm hk)
      simpa [List.filter_cons, hk, List.lookup, h2] using ih

/-! ### Evaluation lemmas for the two send paths -/

theorem socketSendMessage_invalid (dbOk populateOk : Bool) (newId : Nat)
    (u r c : String) (ts : Option Nat) (now : Nat) (store : Store)
    (hv : contentValid c = false) :
    socketSendMessage dbOk populateOk newId u r c ts now store
      = ([.errToSender .validationError], store) := by
  simp [socketSendMessage, mongooseCreate, hv]

theorem socketSendMessage_dbDown (populateOk : Bool) (newId : Nat)
    (u r c : String) (ts : Option Nat) (now : Nat) (store : Store)
    (hv : contentValid c = true) :
    socketSendMessage false populateOk newId u r c ts now store
      = ([.errToSender .persistenceError], store) := by
  simp [socketSendMessage, mongooseCreate, hv]

theorem socketSendMessage_populateFail (newId : Nat)
    (u r c : String) (ts : Option Nat) (now : Nat) (store : Store)
    (hv : contentValid c = true) :
    socketSendMessage true false newId u r c ts now store
      = ([.errToSender .persistenceError],
         store ++ [⟨newId, u, r, c, ts.getD now, false, none⟩]) := by
  simp [socketSendMessage, mongooseCreate, hv]

theorem socketSendMessage_success (newId : Nat)
    (u r c : String) (ts : Option Nat) (now : Nat) (store : Store)
    (hv : contentValid c = true) :
    socketSendMessage true true newId u r c ts now store
      = ([.toRoom (createRoomId u r) "newMessage" ⟨newId, u, r, c, ts.getD now, false, none⟩,
          .toSender "messageSent" ⟨newId, u, r, c, ts.getD now, false, none⟩],
         store ++ [⟨newId, u, r, c, ts.getD now, false, none⟩]) := by
  simp [socketSendMessage, mongooseCreate, hv]

theorem httpSendMessage_emptyContent (conns : Connections) (dbOk : Bool)
    (newId : Nat) (u r c : String) (now : Nat) (store : Store)
    (h : jsTrim c = "") :
    httpSendMessage conns dbOk newId u r c now store
      = (.err 400 "Message content is required", store) := by
  simp [httpSendMessage, h]

theorem httpSendMessage_notConnected (conns : Connections)
    (myConns : List String) (dbOk : Bool) (newId : Nat) (u r c : String)
    (now : Nat) (store : Store)
    (hc : conns.lookup u = some myConns) (hr : myConns.contains r = false)
    (ht : jsTrim c ≠ "") :
    httpSendMessage conns dbOk newId u r c now store
      = (.err 403 "You can only send messages to connected users", store) := by
  have h1 : (jsTrim c == "") = false := beq_eq_false_iff_ne.mpr ht
  have hr' : r ∉ myConns := by simpa using hr
  simp [httpSendMessage, h1, hc, hr']

theorem httpSendMessage_invalid (conns : Connections)
    (myConns : List String) (dbOk : Bool) (newId : Nat) (u r c : String)
    (now : Nat) (store : Store)
    (hc : conns.lookup u = some myConns) (hr : myConns.contains r = true)
    (ht : jsTrim c ≠ "") (hv : contentValid (jsTrim c) = false) :
    httpSendMessage conns dbOk newId u r c now store
      = (.err 500 "Error sending message", store) := by
  have h1 : (jsTrim c == "") = false := beq_eq_false_iff_ne.mpr ht
  have hr' : r ∈ myConns := by simpa using hr
  simp [httpSendMessage, mongooseCreate, h1, hc, hr', hv]

theorem httpSendMessage_success (conns : Connections)
    (myConns : List String) (newId : Nat) (u r c : String)
    (now : Nat) (store : Store)
    (hc : conns.lookup u = some myConns) (hr : myConns.contains r = true)
    (ht : jsTrim c ≠ "") (hv : contentValid (jsTrim c) = true) :
    httpSendMessage conns true newId u r c now store
      = (.okMsg 201 ⟨newId, u, r, jsTrim c, now, false, none⟩,
         store ++ [⟨newId, u, r, jsTrim c, now, false, none⟩]) := by
  have h1 : (jsTrim c == "") = false := beq_eq_false_iff_ne.mpr ht
  have hr' : r ∈ myConns := by simpa using hr
  simp [httpSendMessage, mongooseCreate, h1, hc, hr', hv]

end Drs

namespace Drs

/-- C5: commutativity and shape of `createRoomId` (proved below). -/
theorem createRoomId_eq (A B : String) :
    createRoomId A B = "chat_" ++ min A B ++ "_" ++ max A B := by
  by_cases hAB : A ≤ B
  · simp [createRoomId, hAB, min_def, max_def]
  · simp [createRoomId, hAB, min_def, max_def]

end Drs

/-- C5: for all identity pairs (A, B) with A ≠ B, `createRoomId A B` equals
`createRoomId B A`, and both equal `chat_<lower>_<higher>` where the two
identity strings are sorted lexicographically. -/
theorem claim5_roomId_comm (A B : String) (h : A ≠ B) :
    Drs.createRoomId A B = Drs.createRoomId B A ∧
    Drs.createRoomId A B = "chat_" ++ min A B ++ "_" ++ max A B := by
  refine ⟨?_, Drs.createRoomId_eq A B⟩
  rw [Drs.createRoomId_eq A B, Drs.createRoomId_eq B A, min_comm, max_comm]

/-- C5 witness: instantiated at the pair ("a", "b"). -/
theorem claim5_roomId_comm_witness :
    ("a" : String) ≠ "b" ∧
    (Drs.createRoomId "a" "b" = Drs.createRoomId "b" "a" ∧
     Drs.createRoomId "a" "b" = "chat_" ++ min "a" "b" ++ "_" ++ max "a" "b") :=
  ⟨by decide, claim5_roomId_comm "a" "b" (by decide)⟩

/-- C6 counterexample: `createRoomId` applied to the self-pair ("x", "x")
does not fail — there is no `InvalidPairError` path in the source — it
returns the ordinary room id `chat_x_x`. -/
theorem claim6_selfRoom_counterexample :
    Drs.createRoomId "x" "x" = "chat_x_x" := by
  simp [Drs.createRoomId]

/-- C6 amended: computing the room id of the pair (A, A) succeeds and
returns `chat_<A>_<A>`; the source has no self-pair check. -/
theorem claim6_selfRoom_amended (A : String) :
    Drs.createRoomId A A = "chat_" ++ A ++ "_" ++ A := by
  simp [Drs.createRoomId]

/-- C2 counterexample: identity "u" registers handle "s1", then handle
"s2" (registry reports "s2"); the disconnect of the stale handle "s1"
nevertheless wipes the entry — the registry no longer reports "s2" — and
the `userOffline` broadcast is emitted rather than suppressed. -/
theorem claim2_staleGuard_counterexample :
    Drs.getSocketId "u"
      (Drs.handleConnection "u" "s2"
        (Drs.handleConnection "u" "s1" ⟨[], [], []⟩).1).1 = some "s2" ∧
    Drs.getSocketId "u"
      (Drs.handleDisconnect "u" "s1"
        (Drs.handleConnection "u" "s2"
          (Drs.handleConnection "u" "s1" ⟨[], [], []⟩).1).1).1 = none ∧
    (Drs.handleDisconnect "u" "s1"
      (Drs.handleConnection "u" "s2"
        (Drs.handleConnection "u" "s1" ⟨[], [], []⟩).1).1).2
        = [.userOffline "u"] := by
  refine ⟨by decide, by decide, by decide⟩

/-- C2 amended: `register` is last-wins (after registering h1 then h2 the
registry reports h2), but `deregister` has no stale-handle guard: the
disconnect of the superseded handle h1 removes the identity's entry
outright — the registry no longer reports h2 — and the presence-offline
broadcast is emitted unconditionally, never suppressed. -/
theorem claim2_deregister_amended (id h1 h2 : String) (st : Drs.Presence)
    (hne : h1 ≠ h2) :
    Drs.getSocketId id
      (Drs.handleConnection id h2 (Drs.handleConnection id h1 st).1).1 = some h2 ∧
    Drs.getSocketId id
      (Drs.handleDisconnect id h1
        (Drs.handleConnection id h2 (Drs.handleConnection id h1 st).1).1).1 = none ∧
    (Drs.handleDisconnect id h1
      (Drs.handleConnection id h2 (Drs.handleConnection id h1 st).1).1).2
      = [.userOffline id] := by
  refine ⟨?_, ?_, rfl⟩
  · simp [Drs.getSocketId, Drs.handleConnection, Drs.lookup_mapSet]
  · simp [Drs.getSocketId, Drs.handleDisconnect, Drs.handleConnection,
      Drs.lookup_mapDelete]

/-- C2 amended witness: instantiated at identity "u", handles "s1" ≠ "s2",
starting from the empty registry. -/
theorem claim2_deregister_amended_witness :
    ("s1" : String) ≠ "s2" ∧
    (Drs.getSocketId "u"
      (Drs.handleConnection "u" "s2"
        (Drs.handleConnection "u" "s1" ⟨[], [], []⟩).1).1 = some "s2" ∧
    Drs.getSocketId "u"
      (Drs.handleDisconnect "u" "s1"
        (Drs.handleConnection "u" "s2"
          (Drs.handleConnection "u" "s1" ⟨[], [], []⟩).1).1).1 = none ∧
    (Drs.handleDisconnect "u" "s1"
      (Drs.handleConnection "u" "s2"
        (Drs.handleConnection "u" "s1" ⟨[], [], []⟩).1).1).2
      = [.userOffline "u"]) :=
  ⟨by decide, claim2_deregister_amended "u" "s1" "s2" ⟨[], [], []⟩ (by decide)⟩

/-- C3: on the live `sendMessage` path, a persistence failure is reported
to the sender alone (`messageError`), leaves the store unchanged and
produces no fan-out; and whenever a `newMessage` or `messageSent` event is
emitted, the emitted record has already been appended to the store with
`read=false` — delivery only ever happens on top of a durable write. -/
theorem claim3_persistBeforeFanout (dbOk populateOk : Bool) (newId : Nat)
    (u r c : String) (ts : Option Nat) (now : Nat) (store : Drs.Store) :
    (Drs.contentValid c = true →
      Drs.socketSendMessage false populateOk newId u r c ts now store
        = ([.errToSender .persistenceError], store)) ∧
    (∀ roomId ev m,
      (Drs.Emit.toRoom roomId ev m
          ∈ (Drs.socketSendMessage dbOk populateOk newId u r c ts now store).1 ∨
       Drs.Emit.toSender ev m
          ∈ (Drs.socketSendMessage dbOk populateOk newId u r c ts now store).1) →
      (Drs.socketSendMessage dbOk populateOk newId u r c ts now store).2
          = store ++ [m] ∧ m.read = false) := by
  constructor
  · intro hv
    exact Drs.socketSendMessage_dbDown populateOk newId u r c ts now store hv
  · intro roomId ev m hmem
    cases hv : Drs.contentValid c with
    | false =>
      rw [Drs.socketSendMessage_invalid dbOk populateOk newId u r c ts now store hv] at hmem
      simp at hmem
    | true =>
      cases dbOk with
      | false =>
        rw [Drs.socketSendMessage_dbDown populateOk newId u r c ts now store hv] at hmem
        simp at hmem
      | true =>
        cases populateOk with
        | false =>
          rw [Drs.socketSendMessage_populateFail newId u r c ts now store hv] at hmem
          simp at hmem
        | true =>
          rw [Drs.socketSendMessage_success newId u r c ts now store hv] at hmem
          rw [Drs.socketSendMessage_success newId u r c ts now store hv]
          rcases hmem with hmem | hmem
          · simp at hmem
            rw [hmem.2.2]
            exact ⟨rfl, rfl⟩
          · simp at hmem
            rw [hmem.2]
            exact ⟨rfl, rfl⟩

/-- C3 witness: the persistence-failure branch at a concrete input, and
the fan-out branch at a concrete input with its emitted record. -/
theorem claim3_persistBeforeFanout_witness :
    Drs.socketSendMessage false true 0 "alice" "bob" "hi" none 5 []
      = ([.errToSender .persistenceError], []) ∧
    ((Drs.socketSendMessage true true 0 "alice" "bob" "hi" none 5 []).2
      = [] ++ [⟨0, "alice", "bob", "hi", 5, false, none⟩] ∧
     (⟨0, "alice", "bob", "hi", 5, false, none⟩ : Drs.Msg).read = false) :=
  ⟨(claim3_persistBeforeFanout false true 0 "alice" "bob" "hi" none 5 []).1 (by decide),
   (claim3_persistBeforeFanout true true 0 "alice" "bob" "hi" none 5 []).2
     (Drs.createRoomId "alice" "bob") "newMessage"
     ⟨0, "alice", "bob", "hi", 5, false, none⟩
     (Or.inl (by rw [Drs.socketSendMessage_success 0 "alice" "bob" "hi" none 5 [] (by decide)]; simp))⟩

/-- C9: on the live `sendMessage` path, when the payload carries a client
timestamp the persisted record's `createdAt` equals that client value;
server time is used only when the timestamp is absent. -/
theorem claim9_clientTimestamp (newId : Nat) (u r c : String) (t now : Nat)
    (store : Drs.Store) (hv : Drs.contentValid c = true) :
    (Drs.socketSendMessage true true newId u r c (some t) now store).2
        = store ++ [⟨newId, u, r, c, t, false, none⟩] ∧
    (Drs.socketSendMessage true true newId u r c none now store).2
        = store ++ [⟨newId, u, r, c, now, false, none⟩] := by
  constructor
  · rw [Drs.socketSendMessage_success newId u r c (some t) now store hv]
    rfl
  · rw [Drs.socketSendMessage_success newId u r c none now store hv]
    rfl

/-- C9 witness: client timestamp 3 wins over server time 7 at a concrete
send; with no client timestamp the server time 7 is used. -/
theorem claim9_clientTimestamp_witness :
    (Drs.socketSendMessage true true 0 "alice" "bob" "hi" (some 3) 7 []).2
        = [] ++ [⟨0, "alice", "bob", "hi", 3, false, none⟩] ∧
    (Drs.socketSendMessage true true 0 "alice" "bob" "hi" none 7 []).2
        = [] ++ [⟨0, "alice", "bob", "hi", 7, false, none⟩] :=
  claim9_clientTimestamp 0 "alice" "bob" "hi" 3 7 [] (by decide)

/-- C1 counterexample: under a connection store where "alice" is connected
only to "carol" (so the pair ("alice", "bob") is not authorized), the live
`sendMessage` handler nevertheless persists the message and fans it out —
no authorization check is consulted, refuting the claim on the live path. -/
theorem claim1_authorization_counterexample :
    (([("alice", ["carol"])] : Drs.Connections).lookup "alice" = some ["carol"]) ∧
    (["carol"].contains "bob" = false) ∧
    (Drs.socketSendMessage true true 0 "alice" "bob" "hi" none 5 []).2
      = [⟨0, "alice", "bob", "hi", 5, false, none⟩] ∧
    (Drs.socketSendMessage true true 0 "alice" "bob" "hi" none 5 []).1
      = [.toRoom (Drs.createRoomId "alice" "bob") "newMessage"
            ⟨0, "alice", "bob", "hi", 5, false, none⟩,
         .toSender "messageSent" ⟨0, "alice", "bob", "hi", 5, false, none⟩] := by
  refine ⟨rfl, rfl, ?_, ?_⟩
  · rw [Drs.socketSendMessage_success 0 "alice" "bob" "hi" none 5 [] (by decide)]
    rfl
  · rw [Drs.socketSendMessage_success 0 "alice" "bob" "hi" none 5 [] (by decide)]
    rfl

/-- C1 amended: the connection-authorization check is consulted only on
the POST /api/chat/send path — there an unauthorized pair fails with 403
and no record is created; the live `sendMessage` path performs no
authorization check and persists (and fans out) any schema-valid message
regardless of the connection relation. -/
theorem claim1_authorization_amended (conns : Drs.Connections)
    (myConns : List String) (dbOk : Bool) (newId newId2 : Nat)
    (u r c : String) (ts : Option Nat) (now : Nat) (store : Drs.Store)
    (hc : conns.lookup u = some myConns) (hr : myConns.contains r = false)
    (ht : Drs.jsTrim c ≠ "") (hv : Drs.contentValid c = true) :
    Drs.httpSendMessage conns dbOk newId u r c now store
      = (.err 403 "You can only send messages to connected users", store) ∧
    (Drs.socketSendMessage true true newId2 u r c ts now store).2
      = store ++ [⟨newId2, u, r, c, ts.getD now, false, none⟩] := by
  constructor
  · exact Drs.httpSendMessage_notConnected conns myConns dbOk newId u r c now store hc hr ht
  · rw [Drs.socketSendMessage_success newId2 u r c ts now store hv]

/-- C1 amended witness: "alice" connected only to "carol"; an HTTP send to
"bob" is refused with 403 and no record, while the live path persists. -/
theorem claim1_authorization_amended_witness :
    Drs.httpSendMessage [("alice", ["carol"])] true 0 "alice" "bob" "hi" 5 []
      = (.err 403 "You can only send messages to connected users", []) ∧
    (Drs.socketSendMessage true true 0 "alice" "bob" "hi" none 5 []).2
      = [] ++ [⟨0, "alice", "bob", "hi", 5, false, none⟩] :=
  claim1_authorization_amended [("alice", ["carol"])] ["carol"] true 0 0
    "alice" "bob" "hi" none 5 [] rfl (by decide) (by decide) (by decide)

/-- C4 counterexample: whitespace-only content " " trims to empty, yet the
live `sendMessage` handler persists it (the schema has no trim/whitespace
validation), refuting the claim that whitespace-only content fails with a
validation error on both paths. -/
theorem claim4_validation_counterexample :
    Drs.jsTrim " " = "" ∧
    (Drs.socketSendMessage true true 0 "alice" "bob" " " none 5 []).2
      = [⟨0, "alice", "bob", " ", 5, false, none⟩] := by
  refine ⟨by decide, ?_⟩
  rw [Drs.socketSendMessage_success 0 "alice" "bob" " " none 5 [] (by decide)]
  rfl

/-- C4 amended: on the HTTP path, content that is empty or whitespace-only
after trimming fails with 400 and no persistence, trimmed content of
length exactly 5000 succeeds, and trimmed content of length 5001 fails
(500, no record).  On the live path there is no trim validation: the empty
string fails schema validation with an error to the sender only and no
persistence, but whitespace-only content within the length bound is
persisted; content of length exactly 5000 succeeds and content of length
5001 fails schema validation with no persistence. -/
theorem claim4_validation_amended (conns : Drs.Connections)
    (myConns : List String) (dbOk : Bool) (newId : Nat) (u r : String)
    (now : Nat) (store : Drs.Store) :
    (∀ c, Drs.jsTrim c = "" →
        Drs.httpSendMessage conns dbOk newId u r c now store
          = (.err 400 "Message content is required", store)) ∧
    (∀ c, conns.lookup u = some myConns → myConns.contains r = true →
        Drs.jsTrim c ≠ "" → (Drs.jsTrim c).length = 5000 →
        Drs.httpSendMessage conns true newId u r c now store
          = (.okMsg 201 ⟨newId, u, r, Drs.jsTrim c, now, false, none⟩,
             store ++ [⟨newId, u, r, Drs.jsTrim c, now, false, none⟩])) ∧
    (∀ c, conns.lookup u = some myConns → myConns.contains r = true →
        Drs.jsTrim c ≠ "" → (Drs.jsTrim c).length = 5001 →
        Drs.httpSendMessage conns dbOk newId u r c now store
          = (.err 500 "Error sending message", store)) ∧
    (Drs.socketSendMessage dbOk true newId u r "" none now store
          = ([.errToSender .validationError], store)) ∧
    (∀ c, Drs.jsTrim c = "" → c ≠ "" → c.length ≤ 5000 →
        (Drs.socketSendMessage true true newId u r c none now store).2
          = store ++ [⟨newId, u, r, c, now, false, none⟩]) ∧
    (∀ c, c ≠ "" → c.length = 5000 →
        (Drs.socketSendMessage true true newId u r c none now store).2
          = store ++ [⟨newId, u, r, c, now, false, none⟩]) ∧
    (∀ c, c.length = 5001 →
        Drs.socketSendMessage dbOk true newId u r c none now store
          = ([.errToSender .validationError], store)) := by
  refine ⟨?_, ?_, ?_, ?_, ?_, ?_, ?_⟩
  · intro c hct
    exact Drs.httpSendMessage_emptyContent conns dbOk newId u r c now store hct
  · intro c hc hr hct hlen
    refine Drs.httpSendMessage_success conns myConns newId u r c now store hc hr hct ?_
    have : (Drs.jsTrim c == "") = false := beq_eq_false_iff_ne.mpr hct
    simp [Drs.contentValid, this, hlen]
  · intro c hc hr hct hlen
    refine Drs.httpSendMessage_invalid conns myConns dbOk newId u r c now store hc hr hct ?_
    simp [Drs.contentValid, hlen]
  · refine Drs.socketSendMessage_invalid dbOk true newId u r "" none now store ?_
    simp [Drs.contentValid]
  · intro c hct hne hlen
    have hv : Drs.contentValid c = true := by
      have : (c == "") = false := beq_eq_false_iff_ne.mpr hne
      simp [Drs.contentValid, this, hlen]
    rw [Drs.socketSendMessage_success newId u r c none now store hv]
    rfl
  · intro c hne hlen
    have hv : Drs.contentValid c = true := by
      have : (c == "") = false := beq_eq_false_iff_ne.mpr hne
      simp [Drs.contentValid, this, hlen]
    rw [Drs.socketSendMessage_success newId u r c none now store hv]
    rfl
  · intro c hlen
    refine Drs.socketSendMessage_invalid dbOk true newId u r c none now store ?_
    simp [Drs.contentValid, hlen]

/-- C4 amended witness: whitespace-only " " is refused with 400 on the
HTTP path but persisted on the live path; the empty string is refused on
the live path with no persistence. -/
theorem claim4_validation_amended_witness :
    Drs.httpSendMessage [("alice", ["bob"])] true 0 "alice" "bob" " " 5 []
      = (.err 400 "Message content is required", []) ∧
    (Drs.socketSendMessage true true 0 "alice" "bob" " " none 5 []).2
      = [] ++ [⟨0, "alice", "bob", " ", 5, false, none⟩] ∧
    Drs.socketSendMessage true true 0 "alice" "bob" "" none 5 []
      = ([.errToSender .validationError], []) := by
  have h := claim4_validation_amended [("alice", ["bob"])] ["bob"] true 0
    "alice" "bob" 5 []
  exact ⟨h.1 " " (by decide),
         h.2.2.2.2.1 " " (by decide) (by decide) (by decide),
         h.2.2.2.1⟩

/-- C10: the per-message mark-read route succeeds only for the recipient:
an unknown message id yields not-found with the store unchanged; a caller
other than the recipient yields not-authorized with the store unchanged;
the recipient's call sets `read=true` and `readAt=now` on the message; and
no invocation ever turns a read message back to unread. -/
theorem claim10_markRead (caller : String) (mid now : Nat) (store : Drs.Store) :
    ((∀ m ∈ store, m.id ≠ mid) →
        Drs.markRead caller mid now store = (.notFound, store)) ∧
    (∀ m, store.find? (fun x => decide (x.id = mid)) = some m →
      (m.recipient ≠ caller →
          Drs.markRead caller mid now store = (.notAuthorized, store)) ∧
      (m.recipient = caller →
          Drs.markRead caller mid now store
            = (.okDone { m with read := true, readAt := some now },
               store.map (fun x =>
                 if x.id = mid then { x with read := true, readAt := some now }
                 else x)))) ∧
    (∀ i : Nat, store[i]?.map Drs.Msg.read = some true →
        (Drs.markRead caller mid now store).2[i]?.map Drs.Msg.read = some true) := by
  refine ⟨?_, ?_, ?_⟩
  · intro hni
    have hf : store.find? (fun x => decide (x.id = mid)) = none := by
      rw [List.find?_eq_none]
      intro x hx
      simp [hni x hx]
    simp [Drs.markRead, hf]
  · intro m hm
    constructor
    · intro hrec
      simp [Drs.markRead, hm, hrec]
    · intro hrec
      simp [Drs.markRead, hm, hrec]
  · cases hf : store.find? (fun x => decide (x.id = mid)) with
    | none =>
      have heq : (Drs.markRead caller mid now store).2 = store := by
        simp [Drs.markRead, hf]
      rw [heq]
      exact fun i hr => hr
    | some m =>
      by_cases hrec : m.recipient = caller
      · have heq : (Drs.markRead caller mid now store).2
            = store.map (fun x =>
                if x.id = mid then { x with read := true, readAt := some now }
                else x) := by
          simp [Drs.markRead, hf, hrec]
        rw [heq]
        intro i hr
        rw [List.getElem?_map]
        cases hm : store[i]? with
        | none => rw [hm] at hr; simp at hr
        | some x =>
          rw [hm] at hr
          simp only [Option.map_some'] at hr ⊢
          by_cases hid : x.id = mid
          · simp [hid]
          · simpa [hid] using hr
      · have heq : (Drs.markRead caller mid now store).2 = store := by
          simp [Drs.markRead, hf, hrec]
        rw [heq]
        exact fun i hr => hr

/-- C10 witness: in a one-message store (sender "bob", recipient "alice"),
recipient "alice" marks the message read (read=true, readAt=9), while a
third party "carol" is refused with the store unchanged. -/
theorem claim10_markRead_witness :
    Drs.markRead "alice" 1 9 [⟨1, "bob", "alice", "hi", 1, false, none⟩]
      = (.okDone ⟨1, "bob", "alice", "hi", 1, true, some 9⟩,
         [⟨1, "bob", "alice", "hi", 1, true, some 9⟩]) ∧
    Drs.markRead "carol" 1 9 [⟨1, "bob", "alice", "hi", 1, false, none⟩]
      = (.notAuthorized, [⟨1, "bob", "alice", "hi", 1, false, none⟩]) := by
  constructor
  · have h := ((claim10_markRead "alice" 1 9
        [⟨1, "bob", "alice", "hi", 1, false, none⟩]).2.1
        ⟨1, "bob", "alice", "hi", 1, false, none⟩ rfl).2 rfl
    rw [h]
    decide
  · have h := ((claim10_markRead "carol" 1 9
        [⟨1, "bob", "alice", "hi", 1, false, none⟩]).2.1
        ⟨1, "bob", "alice", "hi", 1, false, none⟩ rfl).1 (by decide)
    rw [h]

namespace Drs

theorem unreadCount_markAllRead (A B : String) (now : Nat) (store : Store) :
    unreadCount A (markAllRead A B now store)
      = store.countP (fun m =>
          decide (m.recipient = A ∧ m.read = false ∧ m.sender ≠ B)) := by
  unfold unreadCount markAllRead
  rw [List.countP_map]
  apply List.countP_congr
  intro m _
  simp only [Function.comp_apply]
  by_cases hs : m.sender = B
  · by_cases hr : m.recipient = A
    · cases hread : m.read with
      | false => simp [hs, hr, hread]
      | true => simp [hs, hr, hread]
    · simp [hs, hr]
  · simp [hs]

end Drs

/-- C7: with the pair (A, B) authorized, `GET /messages/:userId` returns
messages between the pair sorted oldest-to-newest bounded by 100, marks
every previously-unread B→A message read (stamping `readAt`, never
unmarking anything), and a subsequent unread count for A excludes exactly
the messages so marked. -/
theorem claim7_getHistory (conns : Drs.Connections) (myConns : List String)
    (A B : String) (now : Nat) (store : Drs.Store)
    (hc : conns.lookup A = some myConns) (hb : myConns.contains B = true) :
    (∃ msgs, (Drs.getHistory conns A B now store).1 = .okMsgs msgs ∧
        List.Sorted Drs.createdAtLe msgs ∧
        msgs.length ≤ 100 ∧
        ∀ m ∈ msgs, m ∈ store ∧ Drs.msgBetween A B m = true) ∧
    (Drs.getHistory conns A B now store).2
      = store.map (fun m =>
          if m.sender = B ∧ m.recipient = A ∧ m.read = false then
            { m with read := true, readAt := some now }
          else m) ∧
    (∀ i : Nat, store[i]?.map Drs.Msg.read = some true →
        (Drs.getHistory conns A B now store).2[i]?.map Drs.Msg.read = some true) ∧
    Drs.unreadCount A (Drs.getHistory conns A B now store).2
      = store.countP (fun m =>
          decide (m.recipient = A ∧ m.read = false ∧ m.sender ≠ B)) := by
  have hb' : B ∈ myConns := by simpa using hb
  have heq : Drs.getHistory conns A B now store
      = (.okMsgs ((List.insertionSort Drs.createdAtLe
            (store.filter (Drs.msgBetween A B))).take 100),
         Drs.markAllRead A B now store) := by
    simp [Drs.getHistory, hc, hb']
  refine ⟨?_, ?_, ?_, ?_⟩
  · refine ⟨_, by rw [heq], ?_, ?_, ?_⟩
    · exact List.Pairwise.sublist (List.take_sublist _ _)
        (List.sorted_insertionSort _ _)
    · rw [List.length_take]
      exact Nat.min_le_left _ _
    · intro m hm
      have h1 : m ∈ List.insertionSort Drs.createdAtLe
          (store.filter (Drs.msgBetween A B)) := List.mem_of_mem_take hm
      have h2 : m ∈ store.filter (Drs.msgBetween A B) :=
        (List.perm_insertionSort Drs.createdAtLe _).mem_iff.mp h1
      exact ⟨(List.mem_filter.mp h2).1, (List.mem_filter.mp h2).2⟩
  · rw [heq]
    rfl
  · rw [heq]
    intro i hr
    show (Drs.markAllRead A B now store)[i]?.map _ = some true
    unfold Drs.markAllRead
    rw [List.getElem?_map]
    cases hm : store[i]? with
    | none =>
      rw [hm] at hr
      simp at hr
    | some x =>
      rw [hm] at hr
      simp only [Option.map_some'] at hr ⊢
      by_cases hcon : x.sender = B ∧ x.recipient = A ∧ x.read = false
      · simp [hcon]
      · simpa [hcon] using hr
  · rw [heq]
    exact Drs.unreadCount_markAllRead A B now store

/-- C7 witness: "A" connected to "B"; in a store with one unread B→A
message, one A→B message and one unread C→A message, fetching the history
leaves A's unread count at exactly 1 (the C→A message; the B→A one was
marked read). -/
theorem claim7_getHistory_witness :
    Drs.unreadCount "A"
      (Drs.getHistory [("A", ["B"])] "A" "B" 9
        [⟨1, "B", "A", "m1", 1, false, none⟩,
         ⟨2, "A", "B", "m2", 2, false, none⟩,
         ⟨3, "C", "A", "m3", 3, false, none⟩]).2 = 1 :=
  ((claim7_getHistory [("A", ["B"])] ["B"] "A" "B" 9
      [⟨1, "B", "A", "m1", 1, false, none⟩,
       ⟨2, "A", "B", "m2", 2, false, none⟩,
       ⟨3, "C", "A", "m3", 3, false, none⟩] rfl rfl).2.2.2).trans (by decide)

namespace Drs

theorem mem_insertUnique (acc : List String) (x y : String) :
    y ∈ insertUnique acc x ↔ y ∈ acc ∨ y = x := by
  unfold insertUnique
  by_cases h : x ∈ acc
  · simp only [h, if_true]
    constructor
    · exact Or.inl
    · rintro (hy | rfl)
      · exact hy
      · exact h
  · simp [h, List.mem_append]

theorem nodup_insertUnique (acc : List String) (x : String) (h : acc.Nodup) :
    (insertUnique acc x).Nodup := by
  unfold insertUnique
  by_cases hx : x ∈ acc
  · simpa [hx] using h
  · simp only [hx, if_false]
    refine h.append (List.nodup_singleton x) ?_
    intro a ha hax
    rw [List.mem_singleton] at hax
    exact hx (hax ▸ ha)

theorem mem_foldl_insertUnique (l acc : List String) (y : String) :
    y ∈ l.foldl insertUnique acc ↔ y ∈ acc ∨ y ∈ l := by
  induction l generalizing acc with
  | nil => simp
  | cons x t ih =>
    rw [List.foldl_cons, ih, mem_insertUnique]
    constructor
    · rintro ((hy | rfl) | hy)
      · exact Or.inl hy
      · exact Or.inr (List.mem_cons_self _ _)
      · exact Or.inr (List.mem_cons_of_mem _ hy)
    · rintro (hy | hy)
      · exact Or.inl (Or.inl hy)
      · rcases List.mem_cons.mp hy with rfl | hy
        · exact Or.inl (Or.inr rfl)
        · exact Or.inr hy

theorem nodup_foldl_insertUnique (l : List String) :
    ∀ acc : List String, acc.Nodup → (l.foldl insertUnique acc).Nodup := by
  induction l with
  | nil => exact fun acc h => h
  | cons x t ih => exact fun acc h => ih _ (nodup_insertUnique acc x h)

theorem mem_jsSet (l : List String) (y : String) : y ∈ jsSet l ↔ y ∈ l := by
  unfold jsSet
  rw [mem_foldl_insertUnique]
  simp

theorem nodup_jsSet (l : List String) : (jsSet l).Nodup :=
  nodup_foldl_insertUnique l [] List.nodup_nil

theorem mem_conversationPartners (u p : String) (store : Store) :
    p ∈ conversationPartners u store
      ↔ p ≠ u ∧ ∃ m, m ∈ store ∧ msgBetween u p m = true := by
  unfold conversationPartners
  rw [mem_jsSet, List.mem_flatMap]
  constructor
  · rintro ⟨m, hm, hp⟩
    have hm' : m ∈ store.filter (involves u) :=
      (List.perm_insertionSort createdAtGe _).mem_iff.mp hm
    have hms : m ∈ store := (List.mem_filter.mp hm').1
    have hinv : (m.sender = u ∨ m.recipient = u) := by
      have := (List.mem_filter.mp hm').2
      unfold involves at this
      rwa [decide_eq_true_eq] at this
    unfold otherParty at hp
    by_cases hs : m.sender = u
    · by_cases hr : m.recipient = u
      · simp [hs, hr] at hp
      · simp [hs, hr] at hp
        subst hp
        exact ⟨hr, m, hms, by simp [msgBetween, hs]⟩
    · have hr : m.recipient = u := hinv.resolve_left hs
      simp [hs, hr] at hp
      subst hp
      exact ⟨hs, m, hms, by simp [msgBetween, hr]⟩
  · rintro ⟨hpu, m, hms, hb⟩
    have hb' : (m.sender = u ∧ m.recipient = p) ∨ (m.sender = p ∧ m.recipient = u) := by
      unfold msgBetween at hb
      rwa [decide_eq_true_eq] at hb
    refine ⟨m, ?_, ?_⟩
    · rw [(List.perm_insertionSort createdAtGe _).mem_iff, List.mem_filter]
      refine ⟨hms, ?_⟩
      unfold involves
      rw [decide_eq_true_eq]
      rcases hb' with ⟨hs, _⟩ | ⟨_, hr⟩
      · exact Or.inl hs
      · exact Or.inr hr
    · unfold otherParty
      rcases hb' with ⟨hs, hr⟩ | ⟨hs, hr⟩
      · have hru : ¬ m.recipient = u := by rw [hr]; exact hpu
        simp [hs, hru, hr, hpu]
      · have hsu : ¬ m.sender = u := by rw [hs]; exact hpu
        simp [hsu, hr, hs, hpu]

theorem lastMessageBetween_spec (u p : String) (store : Store)
    (hne : ∃ m, m ∈ store ∧ msgBetween u p m = true) :
    ∃ lm, lastMessageBetween u p store = some lm ∧ lm ∈ store ∧
      msgBetween u p lm = true ∧
      ∀ m ∈ store, msgBetween u p m = true → m.createdAt ≤ lm.createdAt := by
  unfold lastMessageBetween
  cases hl : List.insertionSort createdAtGe (store.filter (msgBetween u p)) with
  | nil =>
    exfalso
    obtain ⟨m, hms, hb⟩ := hne
    have h1 : m ∈ store.filter (msgBetween u p) := List.mem_filter.mpr ⟨hms, hb⟩
    have h2 : m ∈ List.insertionSort createdAtGe (store.filter (msgBetween u p)) :=
      (List.perm_insertionSort createdAtGe _).mem_iff.mpr h1
    rw [hl] at h2
    exact List.not_mem_nil m h2
  | cons a t =>
    have hsorted : List.Sorted createdAtGe (a :: t) := by
      rw [← hl]
      exact List.sorted_insertionSort _ _
    have hmem_a : a ∈ store.filter (msgBetween u p) := by
      have : a ∈ List.insertionSort createdAtGe (store.filter (msgBetween u p)) := by
        rw [hl]
        exact List.mem_cons_self a t
      exact (List.perm_insertionSort createdAtGe _).mem_iff.mp this
    refine ⟨a, rfl, (List.mem_filter.mp hmem_a).1, (List.mem_filter.mp hmem_a).2, ?_⟩
    intro m hms hb
    have hmem_m : m ∈ a :: t := by
      rw [← hl]
      exact (List.perm_insertionSort createdAtGe _).mem_iff.mpr
        (List.mem_filter.mpr ⟨hms, hb⟩)
    rcases List.mem_cons.mp hmem_m with rfl | hmt
    · exact Nat.le_refl _
    · exact List.rel_of_pairwise_cons hsorted hmt

end Drs

/-- C8: `GET /conversations` returns exactly the distinct partners with at
least one exchanged message (none missing, none duplicated, no empty
conversations), each annotated with a most recent message of the pair and
the unread count of messages from that partner, and the list is sorted by
last-message timestamp descending. -/
theorem claim8_listConversations (u : String) (store : Drs.Store) :
    ((Drs.listConversations u store).map Drs.Conversation.partner).Nodup ∧
    (∀ p, p ∈ (Drs.listConversations u store).map Drs.Conversation.partner ↔
        (p ≠ u ∧ ∃ m, m ∈ store ∧ Drs.msgBetween u p m = true)) ∧
    (∀ c ∈ Drs.listConversations u store,
        c.unreadCount = store.countP (fun m =>
          decide (m.sender = c.partner ∧ m.recipient = u ∧ m.read = false)) ∧
        ∃ lm, c.lastMessage = some lm ∧ lm ∈ store ∧
          Drs.msgBetween u c.partner lm = true ∧
          ∀ m ∈ store, Drs.msgBetween u c.partner m = true →
            m.createdAt ≤ lm.createdAt) ∧
    List.Sorted Drs.convGe (Drs.listConversations u store) := by
  have hperm : List.Perm (Drs.listConversations u store)
      ((Drs.conversationPartners u store).map (Drs.mkConversation u store)) :=
    List.perm_insertionSort _ _
  refine ⟨?_, ?_, ?_, ?_⟩
  · have h1 : ((Drs.conversationPartners u store).map
        (Drs.mkConversation u store)).map Drs.Conversation.partner
          = Drs.conversationPartners u store := by
      rw [List.map_map]
      exact List.map_id _
    have hpermmap := hperm.map Drs.Conversation.partner
    rw [h1] at hpermmap
    exact hpermmap.nodup_iff.mpr (Drs.nodup_jsSet _)
  · intro p
    constructor
    · intro hp
      rcases List.mem_map.mp hp with ⟨c, hc, hcp⟩
      rcases List.mem_map.mp (hperm.mem_iff.mp hc) with ⟨q, hq, rfl⟩
      have hqp : q = p := hcp
      subst hqp
      exact (Drs.mem_conversationPartners u q store).mp hq
    · rintro ⟨hpu, m, hm, hb⟩
      have hq : p ∈ Drs.conversationPartners u store :=
        (Drs.mem_conversationPartners u p store).mpr ⟨hpu, m, hm, hb⟩
      exact List.mem_map.mpr ⟨Drs.mkConversation u store p,
        hperm.mem_iff.mpr (List.mem_map.mpr ⟨p, hq, rfl⟩), rfl⟩
  · intro c hc
    rcases List.mem_map.mp (hperm.mem_iff.mp hc) with ⟨q, hq, rfl⟩
    exact ⟨rfl, Drs.lastMessageBetween_spec u q store
      ((Drs.mem_conversationPartners u q store).mp hq).2⟩
  · exact List.sorted_insertionSort _ _

/-- C8 witness: with one unread message from "bob" to "alice" and one from
"alice" to "carl", "bob" appears among "alice"'s conversation partners and
the conversation list is sorted by last-message time descending. -/
theorem claim8_listConversations_witness :
    "bob" ∈ (Drs.listConversations "alice"
      [⟨1, "bob", "alice", "hi", 1, false, none⟩,
       ⟨2, "alice", "carl", "yo", 5, false, none⟩]).map
        Drs.Conversation.partner ∧
    List.Sorted Drs.convGe (Drs.listConversations "alice"
      [⟨1, "bob", "alice", "hi", 1, false, none⟩,
       ⟨2, "alice", "carl", "yo", 5, false, none⟩]) := by
  have h := claim8_listConversations "alice"
    [⟨1, "bob", "alice", "hi", 1, false, none⟩,
     ⟨2, "alice", "carl", "yo", 5, false, none⟩]
  exact ⟨(h.2.1 "bob").mpr ⟨by decide,
    ⟨1, "bob", "alice", "hi", 1, false, none⟩, by decide, by decide⟩, h.2.2.2⟩
